import Mathlib

/-!
A shallow embedding of the text-extraction / field-normalization engine and the
CRM record unifier of the `AI-Post-Sales-Copilot` repository
(`app/services/nlp_service.py` and `app/services/crm_service.py`), together
with theorems settling the specification claims about them.

Python strings are modelled as Lean `String` / `List Char` (Python `len`,
slicing and `str.split` all operate on code points, as the Lean counterparts
do). Python floats that arise here are exact decimals, modelled as `ℚ`.
Fallible Python code (a `raise` that the surrounding code does not catch) is
modelled with `Except`/`Option`.
-/

namespace Copilot

/-- ASCII whitespace, as matched by Python's `\s` and `str.strip` on the
ASCII inputs handled here: space, tab, newline, carriage return, vertical
tab, form feed. -/
def pyIsSpace (c : Char) : Bool :=
  c = ' ' || c = '\t' || c = '\n' || c = '\r' || c = '\x0b' || c = '\x0c'

/-- Python `str.lower` on a character (ASCII case folding). -/
def lowerC (c : Char) : Char := c.toLower

/-- Python `str.lower` on a string of characters. -/
def lowerL (l : List Char) : List Char := l.map lowerC

/-- Python `str.strip()`: drop whitespace from both ends. -/
def stripL (l : List Char) : List Char :=
  ((l.dropWhile pyIsSpace).reverse.dropWhile pyIsSpace).reverse

/-- Python `needle in haystack` for strings: substring containment. -/
def containsSub (hay needle : List Char) : Bool :=
  match hay with
  | [] => needle.isEmpty
  | _ :: rest => needle.isPrefixOf hay || containsSub rest needle

/-- A Python value as it occurs in the CRM records handled by
`CRMService.unify_customer_data`: `None`, a string, an int, a (finite) float,
the float `nan`, or a `datetime` object. -/
inductive PyVal where
  | none : PyVal
  | str (s : String) : PyVal
  | int (n : ℤ) : PyVal
  | float (q : ℚ) : PyVal
  | nan : PyVal
  | dt (y m d hh mm ss : ℕ) : PyVal
  deriving DecidableEq, Repr

/-- Python truthiness: `None`, `""`, `0` and `0.0` are falsy; every other
value occurring here (including `nan` and any `datetime`) is truthy. -/
def truthy : PyVal → Bool
  | PyVal.none => false
  | PyVal.str s => s ≠ ""
  | PyVal.int n => n ≠ 0
  | PyVal.float q => q ≠ 0
  | PyVal.nan => true
  | PyVal.dt _ _ _ _ _ _ => true

/-- A Python dict with string keys, as an association list (Python dict keys
are unique, so first-match lookup is faithful). -/
def PyDict := List (String × PyVal)

/-- Python `d.get(k)`: the stored value, or `None` when the key is absent. -/
def pyGet (d : PyDict) (k : String) : PyVal :=
  match d.find? (fun p => p.1 = k) with
  | Option.some p => p.2
  | Option.none => PyVal.none

/-- A `datetime.datetime` as produced by `CRMService._parse_date`:
date, time and an optional UTC offset in minutes. -/
structure PyDateTime where
  year : ℕ
  month : ℕ
  day : ℕ
  hour : ℕ
  minute : ℕ
  second : ℕ
  offsetMinutes : Option ℤ
  deriving DecidableEq, Repr

def isLeapYear (y : ℕ) : Bool :=
  (y % 4 = 0 && y % 100 ≠ 0) || y % 400 = 0

def daysInMonth (y m : ℕ) : ℕ :=
  if m = 1 then 31
  else if m = 2 then (if isLeapYear y then 29 else 28)
  else if m = 3 then 31
  else if m = 4 then 30
  else if m = 5 then 31
  else if m = 6 then 30
  else if m = 7 then 31
  else if m = 8 then 31
  else if m = 9 then 30
  else if m = 10 then 31
  else if m = 11 then 30
  else 31

/-- Take exactly `n` decimal digits from the front; result is their value. -/
def takeDigits : ℕ → List Char → Option (ℕ × List Char)
  | 0, l => Option.some (0, l)
  | _ + 1, [] => Option.none
  | n + 1, c :: cs =>
    if c.isDigit then
      match takeDigits n cs with
      | Option.some (v, rest) => Option.some ((c.toNat - 48) * 10 ^ n + v, rest)
      | Option.none => Option.none
    else Option.none

/-- The optional fractional-second part `.fff` or `.ffffff` of an ISO time. -/
def isoFrac : List Char → Option (List Char)
  | '.' :: cs =>
    let digs := cs.takeWhile Char.isDigit
    if digs.length = 3 ∨ digs.length = 6 then Option.some (cs.drop digs.length)
    else Option.none
  | l => Option.some l

/-- The optional `±HH:MM[:SS[.ffffff]]` offset suffix of an ISO datetime;
returns the offset in minutes. -/
def isoOffset : List Char → Option (Option ℤ × List Char)
  | [] => Option.some (Option.none, [])
  | c :: cs =>
    if c = '+' ∨ c = '-' then
      match takeDigits 2 cs with
      | Option.some (hh, ':' :: cs2) =>
        match takeDigits 2 cs2 with
        | Option.some (mm, rest) =>
          let rest2 := match rest with
            | ':' :: cs3 =>
              match takeDigits 2 cs3 with
              | Option.some (_, r) => isoFrac r
              | Option.none => Option.none
            | r => Option.some r
          match rest2 with
          | Option.some [] =>
            let sgn : ℤ := if c = '+' then 1 else -1
            Option.some (Option.some (sgn * (hh * 60 + mm)), [])
          | _ => Option.none
        | Option.none => Option.none
      | _ => Option.none
    else Option.none

/-- The `HH:MM[:SS[.ffffff]]` time part of an ISO datetime string. -/
def isoTime (l : List Char) : Option (ℕ × ℕ × ℕ × Option ℤ) :=
  match takeDigits 2 l with
  | Option.some (hh, ':' :: cs) =>
    match takeDigits 2 cs with
    | Option.some (mm, rest) =>
      let withSec : Option (ℕ × List Char) := match rest with
        | ':' :: cs2 =>
          match takeDigits 2 cs2 with
          | Option.some (ss, r) =>
            match isoFrac r with
            | Option.some r2 => Option.some (ss, r2)
            | Option.none => Option.none
          | Option.none => Option.none
        | r => Option.some (0, r)
      match withSec with
      | Option.some (ss, r2) =>
        if hh < 24 ∧ mm < 60 ∧ ss < 60 then
          match isoOffset r2 with
          | Option.some (off, []) => Option.some (hh, mm, ss, off)
          | _ => Option.none
        else Option.none
      | Option.none => Option.none
    | _ => Option.none
  | _ => Option.none

/-- `datetime.fromisoformat` (the strict pre-3.11 grammar):
`YYYY-MM-DD`, optionally followed by a single separator character and
`HH:MM[:SS[.fff[fff]]]`, optionally followed by a `±HH:MM[:SS]` offset.
Rejects anything else (Python raises `ValueError`, modelled as `none`). -/
def fromisoformat (s : String) : Option PyDateTime :=
  match takeDigits 4 s.data with
  | Option.some (y, '-' :: cs) =>
    match takeDigits 2 cs with
    | Option.some (m, '-' :: cs2) =>
      match takeDigits 2 cs2 with
      | Option.some (d, rest) =>
        if 1 ≤ m ∧ m ≤ 12 ∧ 1 ≤ d ∧ d ≤ daysInMonth y m ∧ 1 ≤ y ∧ y ≤ 9999 then
          match rest with
          | [] => Option.some ⟨y, m, d, 0, 0, 0, Option.none⟩
          | _ :: timePart =>
            match isoTime timePart with
            | Option.some (hh, mm, ss, off) => Option.some ⟨y, m, d, hh, mm, ss, off⟩
            | Option.none => Option.none
        else Option.none
      | _ => Option.none
    | _ => Option.none
  | _ => Option.none

def replaceZGo : List Char → List Char
  | [] => []
  | 'Z' :: cs => '+' :: '0' :: '0' :: ':' :: '0' :: '0' :: replaceZGo cs
  | c :: cs => c :: replaceZGo cs

/-- `str(date_str).replace('Z', '+00:00')` as done by `_parse_date`. -/
def replaceZ (s : String) : String :=
  String.mk (replaceZGo s.data)

/-- A decimal rendering of a rational, standing in for Python `str(float)`
(shortest round-trip repr). No claim depends on its exact spelling: every
string it can produce fails both date parsers in `_parse_date`. -/
def floatRepr (q : ℚ) : String :=
  let sgn := if q < 0 then "-" else ""
  let a := |q|
  let ip := a.floor.toNat.repr
  let fracNum := ((a - a.floor) * 1000000).floor.toNat
  sgn ++ ip ++ "." ++ fracNum.repr

/-- Python `str` applied to the values a CRM record can hold. -/
def pyStr : PyVal → String
  | PyVal.none => "None"
  | PyVal.str s => s
  | PyVal.int n => toString n
  | PyVal.float q => floatRepr q
  | PyVal.nan => "nan"
  | PyVal.dt y m d hh mm ss =>
    toString y ++ "-" ++ toString m ++ "-" ++ toString d ++ " " ++
    toString hh ++ ":" ++ toString mm ++ ":" ++ toString ss

/-! ### `datetime.strptime`

CPython's `_strptime` compiles a format string into a regex: `%Y` is four
digits, `%y` two digits, `%m` matches `1[0-2]|0[1-9]|[1-9]`, `%d` matches
`3[01]|[12]\d|0[1-9]|[1-9]`, `%B`/`%b` match the (distinct, non-prefix)
month names case-insensitively, a space in the format matches `\s+`, other
characters are literals; the whole string must be consumed, and the matched
fields must form a constructible `datetime` (valid day of month,
`1 ≤ year ≤ 9999`). The two-digit alternatives of `%m`/`%d` are tried
before the one-digit alternative, with backtracking into the one-digit
alternative when the rest of the format fails. -/

/-- One token of a compiled strptime format. -/
inductive Tok where
  | lit (c : Char) : Tok
  | ws : Tok
  | tM : Tok
  | tD : Tok
  | tY4 : Tok
  | tY2 : Tok
  | tBfull : Tok
  | tBabbr : Tok
  deriving DecidableEq, Repr

/-- Year / month / day fields collected while matching a format
(strptime defaults: 1900-01-01). -/
structure DParts where
  y : ℕ
  m : ℕ
  d : ℕ
  deriving DecidableEq, Repr

def fullMonthNames : List (List Char) :=
  ["january".data, "february".data, "march".data, "april".data, "may".data,
   "june".data, "july".data, "august".data, "september".data, "october".data,
   "november".data, "december".data]

def abbrMonthNames : List (List Char) :=
  ["jan".data, "feb".data, "mar".data, "apr".data, "may".data, "jun".data,
   "jul".data, "aug".data, "sep".data, "oct".data, "nov".data, "dec".data]

/-- Match one of the month names (already lower-cased) as a prefix of the
lower-cased input; returns the 1-based month number and the rest. The names
are pairwise non-prefixes of each other, so at most one can match. -/
def matchMonth (names : List (List Char)) (idx : ℕ) (cs : List Char) :
    Option (ℕ × List Char) :=
  match names with
  | [] => Option.none
  | n :: ns =>
    if n.isPrefixOf (lowerL cs) then Option.some (idx, cs.drop n.length)
    else matchMonth ns (idx + 1) cs

/-- Value of a digit character. -/
def dval (c : Char) : ℕ := c.toNat - 48

/-- Run a compiled strptime format against the input, with the
two-digit-then-one-digit backtracking of `%m` and `%d`. -/
def runFmt : List Tok → List Char → DParts → Option DParts
  | [], [], st => Option.some st
  | [], _ :: _, _ => Option.none
  | Tok.lit ch :: ts, c :: cs, st => if c = ch then runFmt ts cs st else Option.none
  | Tok.lit _ :: _, [], _ => Option.none
  | Tok.ws :: ts, cs, st =>
    match cs with
    | c :: cs2 => if pyIsSpace c then runFmt ts (cs2.dropWhile pyIsSpace) st else Option.none
    | [] => Option.none
  | Tok.tM :: ts, c1 :: c2 :: cs, st =>
    let v2 := dval c1 * 10 + dval c2
    let two :=
      if c1.isDigit ∧ c2.isDigit ∧ 1 ≤ v2 ∧ v2 ≤ 12 then
        runFmt ts cs { st with m := v2 }
      else Option.none
    match two with
    | Option.some r => Option.some r
    | Option.none =>
      if c1.isDigit ∧ 1 ≤ dval c1 then runFmt ts (c2 :: cs) { st with m := dval c1 }
      else Option.none
  | Tok.tM :: ts, [c1], st =>
    if c1.isDigit ∧ 1 ≤ dval c1 then runFmt ts [] { st with m := dval c1 }
    else Option.none
  | Tok.tM :: _, [], _ => Option.none
  | Tok.tD :: ts, c1 :: c2 :: cs, st =>
    let v2 := dval c1 * 10 + dval c2
    let two :=
      if c1.isDigit ∧ c2.isDigit ∧ 1 ≤ v2 ∧ v2 ≤ 31 then
        runFmt ts cs { st with d := v2 }
      else Option.none
    match two with
    | Option.some r => Option.some r
    | Option.none =>
      if c1.isDigit ∧ 1 ≤ dval c1 then runFmt ts (c2 :: cs) { st with d := dval c1 }
      else Option.none
  | Tok.tD :: ts, [c1], st =>
    if c1.isDigit ∧ 1 ≤ dval c1 then runFmt ts [] { st with d := dval c1 }
    else Option.none
  | Tok.tD :: _, [], _ => Option.none
  | Tok.tY4 :: ts, c1 :: c2 :: c3 :: c4 :: cs, st =>
    if c1.isDigit ∧ c2.isDigit ∧ c3.isDigit ∧ c4.isDigit then
      runFmt ts cs { st with y := ((dval c1 * 10 + dval c2) * 10 + dval c3) * 10 + dval c4 }
    else Option.none
  | Tok.tY4 :: _, _, _ => Option.none
  | Tok.tY2 :: ts, c1 :: c2 :: cs, st =>
    if c1.isDigit ∧ c2.isDigit then
      let v := dval c1 * 10 + dval c2
      runFmt ts cs { st with y := if v ≤ 68 then 2000 + v else 1900 + v }
    else Option.none
  | Tok.tY2 :: _, _, _ => Option.none
  | Tok.tBfull :: ts, cs, st =>
    match matchMonth fullMonthNames 1 cs with
    | Option.some (m, rest) => runFmt ts rest { st with m := m }
    | Option.none => Option.none
  | Tok.tBabbr :: ts, cs, st =>
    match matchMonth abbrMonthNames 1 cs with
    | Option.some (m, rest) => runFmt ts rest { st with m := m }
    | Option.none => Option.none

/-- `datetime.strptime` for one format: regex match plus `datetime`
constructibility (month is forced into 1..12 and day ≥ 1 by the regex). -/
def strptimeF (toks : List Tok) (s : List Char) : Option DParts :=
  match runFmt toks s ⟨1900, 1, 1⟩ with
  | Option.some p =>
    if 1 ≤ p.y ∧ p.y ≤ 9999 ∧ p.d ≤ daysInMonth p.y p.m then Option.some p
    else Option.none
  | Option.none => Option.none

/-- `CRMService._parse_date`: `None`/falsy input gives `None`; a `datetime`
passes through; otherwise try `fromisoformat(str(x).replace('Z','+00:00'))`,
then `strptime(str(x), '%Y-%m-%d')`; on failure `None` — never an error. -/
def parse_date (v : PyVal) : Option PyDateTime :=
  if truthy v = false then Option.none
  else match v with
  | PyVal.dt y m d hh mm ss => Option.some ⟨y, m, d, hh, mm, ss, Option.none⟩
  | _ =>
    match fromisoformat (replaceZ (pyStr v)) with
    | Option.some dtv => Option.some dtv
    | Option.none =>
      match strptimeF [Tok.tY4, Tok.lit '-', Tok.tM, Tok.lit '-', Tok.tD] (pyStr v).data with
      | Option.some p => Option.some ⟨p.y, p.m, p.d, 0, 0, 0, Option.none⟩
      | Option.none => Option.none

/-- The canonical account record built by `CRMService.unify_customer_data`. -/
structure Unified where
  account_name : PyVal
  industry : PyVal
  annual_revenue : PyVal
  employee_count : PyVal
  primary_contact : PyVal
  primary_email : PyVal
  last_activity_date : Option PyDateTime
  deriving DecidableEq, Repr

/-- `record.get(key)` where the record itself may be Python `None`:
attribute access on `None` raises `AttributeError`, modelled as
`Except.error`. -/
def getKey : Option PyDict → String → Except Unit PyVal
  | Option.none, _ => Except.error ()
  | Option.some d, k => Except.ok (pyGet d k)

/-- Python `a or b` over the two record lookups, with Python's left-to-right
short-circuit: the right lookup is only evaluated when the left value is
falsy. -/
def orField (a : Except Unit PyVal) (b : Unit → Except Unit PyVal) :
    Except Unit PyVal := do
  let va ← a
  if truthy va then pure va else b ()

/-- `CRMService.unify_customer_data(salesforce_data, hubspot_data)`:
builds the unified dict field by field with `get(...) or get(...)`, passing
the last-activity value through `_parse_date`. The records are typed `Dict`
in the source; a record that is actually `None` makes the first attribute
access raise. -/
def unify_customer_data (salesforce_data hubspot_data : Option PyDict) :
    Except Unit Unified := do
  let account_name ← orField (getKey salesforce_data "Name")
    (fun _ => getKey hubspot_data "name")
  let industry ← orField (getKey salesforce_data "Industry")
    (fun _ => getKey hubspot_data "industry")
  let annual_revenue ← orField (getKey salesforce_data "AnnualRevenue")
    (fun _ => getKey hubspot_data "annualrevenue")
  let employee_count ← orField (getKey salesforce_data "NumberOfEmployees")
    (fun _ => getKey hubspot_data "numberofemployees")
  let primary_contact ← orField (getKey salesforce_data "PrimaryContact")
    (fun _ => getKey hubspot_data "primary_contact")
  let primary_email ← orField (getKey salesforce_data "Email")
    (fun _ => getKey hubspot_data "email")
  let lad ← orField (getKey salesforce_data "LastActivityDate")
    (fun _ => getKey hubspot_data "notes_last_updated")
  pure ⟨account_name, industry, annual_revenue, employee_count,
        primary_contact, primary_email, parse_date lad⟩

/-- Python `a or b` once both operands are known to evaluate without error. -/
def pyOr (a b : PyVal) : PyVal := if truthy a then a else b

/-- "Present" exactly as the specification words it: non-null, non-empty
string, or non-NaN number. -/
def presentSpec : PyVal → Bool
  | PyVal.none => false
  | PyVal.str s => s ≠ ""
  | PyVal.int _ => true
  | PyVal.float _ => true
  | PyVal.nan => false
  | PyVal.dt _ _ _ _ _ _ => true

/-! ### `NLPService.normalize_date`

`normalize_date` tries nine strptime formats in a fixed order against the
stripped input and returns the first successful parse reformatted with
`strftime('%Y-%m-%d')`; if none parses it returns the input verbatim. Every
step that can raise sits inside the per-format `try`, so the outer
`except: return None` branch is never taken; the `Option` in the result
models that outer branch. -/

/-- The nine formats of `normalize_date`, compiled as CPython's `_strptime`
compiles them: `'%m/%d/%Y', '%m-%d-%Y', '%Y-%m-%d', '%m/%d/%y', '%m-%d-%y',
'%B %d, %Y', '%b %d, %Y', '%d %B %Y', '%d %b %Y'`. -/
def normalizeFormats : List (List Tok) :=
  [[Tok.tM, Tok.lit '/', Tok.tD, Tok.lit '/', Tok.tY4],
   [Tok.tM, Tok.lit '-', Tok.tD, Tok.lit '-', Tok.tY4],
   [Tok.tY4, Tok.lit '-', Tok.tM, Tok.lit '-', Tok.tD],
   [Tok.tM, Tok.lit '/', Tok.tD, Tok.lit '/', Tok.tY2],
   [Tok.tM, Tok.lit '-', Tok.tD, Tok.lit '-', Tok.tY2],
   [Tok.tBfull, Tok.ws, Tok.tD, Tok.lit ',', Tok.ws, Tok.tY4],
   [Tok.tBabbr, Tok.ws, Tok.tD, Tok.lit ',', Tok.ws, Tok.tY4],
   [Tok.tD, Tok.ws, Tok.tBfull, Tok.ws, Tok.tY4],
   [Tok.tD, Tok.ws, Tok.tBabbr, Tok.ws, Tok.tY4]]

/-- Two decimal digits, zero padded (`%m`/`%d` of `strftime`). -/
def pad2 (n : ℕ) : List Char :=
  [Char.ofNat (48 + n / 10 % 10), Char.ofNat (48 + n % 10)]

/-- Four decimal digits, zero padded (`%Y` of `strftime`, as documented:
year with century, `0001`, ..., `9999`). -/
def pad4 (n : ℕ) : List Char :=
  [Char.ofNat (48 + n / 1000 % 10), Char.ofNat (48 + n / 100 % 10),
   Char.ofNat (48 + n / 10 % 10), Char.ofNat (48 + n % 10)]

/-- `dt.strftime('%Y-%m-%d')`. -/
def strftimeIso (p : DParts) : List Char :=
  pad4 p.y ++ '-' :: pad2 p.m ++ '-' :: pad2 p.d

/-- The `for fmt in formats: try ... except: continue` loop of
`normalize_date`: first format whose `strptime(date_str.strip(), fmt)`
succeeds wins and is reformatted. -/
def tryFormatsGo : List (List Tok) → List Char → Option (List Char)
  | [], _ => Option.none
  | f :: fs, s =>
    match strptimeF f (stripL s) with
    | Option.some p => Option.some (strftimeIso p)
    | Option.none => tryFormatsGo fs s

/-- The value `normalize_date` actually returns on a string argument:
reformatted first parse, or the argument verbatim. -/
def normalize_core (date_str : String) : String :=
  match tryFormatsGo normalizeFormats date_str.data with
  | Option.some l => String.mk l
  | Option.none => date_str

/-- `NLPService.normalize_date`; `Option.none` models the outer
`except: return None` branch, which the body never reaches (claim C10). -/
def normalize_date (date_str : String) : Option String :=
  Option.some (normalize_core date_str)

/-! ### Regex scanning machinery

Each of the fixed regex patterns in `nlp_service.py` is embedded as a
matcher `List Char → Option (List Char × ℕ)` that attempts the pattern at
the head of the input and returns the captured group together with the
total number of characters consumed. The patterns are built from character
classes and literal alternatives whose follow sets are disjoint, so greedy
matching without general backtracking reproduces Python's leftmost-greedy
semantics; the few places where Python's engine genuinely backtracks
(two-digit versus one-digit numbers in `strptime`, the `.*` and
`[A-Za-z\s&,]+` of the party patterns) implement that backtracking
explicitly. -/

def Matcher : Type := List Char → Option (List Char × ℕ)

/-- `re.search`: try the matcher at every position, left to right. -/
def searchGo (m : Matcher) : List Char → Option (List Char)
  | [] => match m [] with
    | Option.some (g, _) => Option.some g
    | Option.none => Option.none
  | c :: cs => match m (c :: cs) with
    | Option.some (g, _) => Option.some g
    | Option.none => searchGo m cs

/-- Structural worker for `scanAll`: the first argument is the length of
the input list, which bounds the number of scan steps exactly (each step
shortens the input by at least one character, and a zero bound coincides
with an empty input). -/
def scanAllGo : ℕ → Matcher → ℕ → List Char → List (ℕ × List Char × ℕ)
  | 0, _, _, _ => []
  | fuel + 1, m, pos, l =>
    match l with
    | [] => []
    | c :: cs =>
      match m (c :: cs) with
      | Option.some (g, n) =>
        if 1 ≤ n then
          (pos, g, n) :: scanAllGo fuel m (pos + n) ((c :: cs).drop n)
        else scanAllGo fuel m (pos + 1) cs
      | Option.none => scanAllGo fuel m (pos + 1) cs

/-- `re.finditer` / `re.findall`: all non-overlapping matches, left to
right, resuming after each match; records (start position, group, match
length). Every pattern here consumes at least one character. -/
def scanAll (m : Matcher) (pos : ℕ) (l : List Char) : List (ℕ × List Char × ℕ) :=
  scanAllGo l.length m pos l

/-- A literal (case-sensitive after the caller's lower-casing). -/
def litM (pat : List Char) (l : List Char) : Option ℕ :=
  if pat.isPrefixOf l then Option.some pat.length else Option.none

/-- `cls+`: one or more characters of a class, greedy. -/
def plusM (cl : Char → Bool) (l : List Char) : Option ℕ :=
  let k := (l.takeWhile cl).length
  if 1 ≤ k then Option.some k else Option.none

/-- Ordered literal alternation `(a|b|...)`; the alternatives used here
start with pairwise distinct characters, so at most one can apply. -/
def altM : List (List Char) → List Char → Option ℕ
  | [], _ => Option.none
  | a :: as_, l =>
    match litM a l with
    | Option.some k => Option.some k
    | Option.none => altM as_ l

/-- Optional ordered alternation `(?:a|b)?`; consumes nothing on failure. -/
def optAltM (alts : List (List Char)) (l : List Char) : Option ℕ :=
  match altM alts l with
  | Option.some k => Option.some k
  | Option.none => Option.some 0

/-- Sequence a list of consumers, adding up consumed lengths. -/
def seqSteps : List (List Char → Option ℕ) → List Char → Option ℕ
  | [], _ => Option.some 0
  | s :: ss, l =>
    match s l with
    | Option.none => Option.none
    | Option.some k =>
      match seqSteps ss (l.drop k) with
      | Option.none => Option.none
      | Option.some k2 => Option.some (k + k2)

def litS (s : String) : List Char → Option ℕ := litM s.data

def altS (ss : List String) : List Char → Option ℕ :=
  altM (ss.map String.data)

def optAltS (ss : List String) : List Char → Option ℕ :=
  optAltM (ss.map String.data)

/-- `\s+`. -/
def wsPlus : List Char → Option ℕ := plusM pyIsSpace

/-- `[\s:]+`. -/
def wsColonPlus : List Char → Option ℕ :=
  plusM (fun c => pyIsSpace c || c = ':')

/-- `\d{1,2}`: two digits if the second character is a digit, else one.
In every pattern below the token is followed by a non-digit, so the
greedy choice is the only one that can extend to a full match. -/
def digits12 (l : List Char) : Option ℕ :=
  match l with
  | [] => Option.none
  | [c1] => if c1.isDigit then Option.some 1 else Option.none
  | c1 :: c2 :: _ =>
    if c1.isDigit then Option.some (if c2.isDigit then 2 else 1)
    else Option.none

/-- The separator class of the numeric date token: a slash or a dash. -/
def sepDM (l : List Char) : Option ℕ :=
  match l with
  | [] => Option.none
  | c :: _ => if c = '/' ∨ c = '-' then Option.some 1 else Option.none

/-- `\d{2,4}`: up to four digits, at least two, greedy (always followed by
a non-digit requirement or nothing in the patterns below). -/
def digits24 (l : List Char) : Option ℕ :=
  let k := min (l.takeWhile Char.isDigit).length 4
  if 2 ≤ k then Option.some k else Option.none

/-- The numeric date token: `\d{1,2}`, a slash-or-dash separator,
`\d{1,2}`, a separator, `\d{2,4}`; returns the number of characters it
spans. -/
def matchD (l : List Char) : Option ℕ :=
  match digits12 l with
  | Option.none => Option.none
  | Option.some k1 =>
    match sepDM (l.drop k1) with
    | Option.none => Option.none
    | Option.some _ =>
      let l2 := l.drop (k1 + 1)
      match digits12 l2 with
      | Option.none => Option.none
      | Option.some k2 =>
        match sepDM (l2.drop k2) with
        | Option.none => Option.none
        | Option.some _ =>
          let l3 := l2.drop (k2 + 1)
          match digits24 l3 with
          | Option.none => Option.none
          | Option.some k3 => Option.some (k1 + 1 + k2 + 1 + k3)

/-- A pattern of the form `prefix-steps (D)`: the capture group is the
numeric date token at the end. -/
def groupAfter (pre : List (List Char → Option ℕ)) : Matcher := fun l =>
  match seqSteps pre l with
  | Option.none => Option.none
  | Option.some k =>
    match matchD (l.drop k) with
    | Option.none => Option.none
    | Option.some kd => Option.some ((l.drop k).take kd, k + kd)

/-- `renew(?:al|s)?\s+(?:date|on|by)[\s:]+(D)`. -/
def renewalPat1 : Matcher :=
  groupAfter [litS "renew", optAltS ["al", "s"], wsPlus,
              altS ["date", "on", "by"], wsColonPlus]

/-- `expires?\s+(?:on|by)[\s:]+(D)`. -/
def renewalPat2 : Matcher :=
  groupAfter [litS "expire", optAltS ["s"], wsPlus, altS ["on", "by"],
              wsColonPlus]

/-- `term\s+ends?\s+(?:on|by)[\s:]+(D)`. -/
def renewalPat3 : Matcher :=
  groupAfter [litS "term", wsPlus, litS "end", optAltS ["s"], wsPlus,
              altS ["on", "by"], wsColonPlus]

/-- `(D)\s+renewal`: the capture group comes first. -/
def renewalPat4 : Matcher := fun l =>
  match matchD l with
  | Option.none => Option.none
  | Option.some kd =>
    match seqSteps [wsPlus, litS "renewal"] (l.drop kd) with
    | Option.none => Option.none
    | Option.some k2 => Option.some (l.take kd, kd + k2)

/-- `automatically\s+renew(?:s|ed)?\s+on\s+(D)`. -/
def renewalPat5 : Matcher :=
  groupAfter [litS "automatically", wsPlus, litS "renew", optAltS ["s", "ed"],
              wsPlus, litS "on", wsPlus]

/-- The five patterns of `extract_renewal_date`, in source order. -/
def renewalPatterns : List Matcher :=
  [renewalPat1, renewalPat2, renewalPat3, renewalPat4, renewalPat5]

/-- The `for pattern in patterns` loop of `extract_renewal_date`: first
pattern with a match anywhere wins; its group is normalized. -/
def extractRenewalGo : List Matcher → List Char → Option String
  | [], _ => Option.none
  | p :: ps, tl =>
    match searchGo p tl with
    | Option.some tok => normalize_date (String.mk tok)
    | Option.none => extractRenewalGo ps tl

/-- `NLPService.extract_renewal_date`: search the five patterns in order
against the lower-cased text; normalize the first captured token. -/
def extract_renewal_date (text : String) : Option String :=
  extractRenewalGo renewalPatterns (lowerL text.data)

/-- The specification's description of `extract_renewal_date`, assembled
from its words: case-insensitive matching, first pattern in priority order
that matches anywhere wins, the token is normalized, a normalization
failure returns the literal matched substring unchanged, no match gives
an absent result. -/
def renewalSpecAlg (text : String) : Option String :=
  (renewalPatterns.findSome? fun p => searchGo p (lowerL text.data)).map
    (fun tok =>
      match tryFormatsGo normalizeFormats tok with
      | Option.some l => String.mk l
      | Option.none => String.mk tok)

/-! ### `NLPService.extract_contract_value` -/

/-- `\s*` (greedy; always followed by a non-whitespace requirement here). -/
def wsStar : List Char → Option ℕ := fun l =>
  Option.some (l.takeWhile pyIsSpace).length

/-- The amount group `([0-9,]+(?:\.[0-9]{2})?)`: a greedy run of digits and
commas, then optionally a dot followed by exactly two digits. -/
def numGroup : Matcher := fun l =>
  let k := (l.takeWhile (fun c => c.isDigit || c = ',')).length
  if 1 ≤ k then
    match l.drop k with
    | '.' :: d1 :: d2 :: _ =>
      if d1.isDigit ∧ d2.isDigit then Option.some (l.take (k + 3), k + 3)
      else Option.some (l.take k, k)
    | _ => Option.some (l.take k, k)
  else Option.none

/-- A pattern of the form `prefix-steps (amount-group)`. -/
def groupAfterNum (pre : List (List Char → Option ℕ)) : Matcher := fun l =>
  match seqSteps pre l with
  | Option.none => Option.none
  | Option.some k =>
    match numGroup (l.drop k) with
    | Option.none => Option.none
    | Option.some (g, kg) => Option.some (g, k + kg)

/-- `\$\s*([0-9,]+(?:\.[0-9]{2})?)`. -/
def valuePat1 : Matcher := groupAfterNum [litS "$", wsStar]

/-- `USD\s*([0-9,]+(?:\.[0-9]{2})?)` — note the upper-case literal, while
the code searches the lower-cased text. -/
def valuePat2 : Matcher := groupAfterNum [litS "USD", wsStar]

/-- `total\s+(?:value|amount|price)[\s:]+\$?\s*(amount)`. -/
def valuePat3 : Matcher :=
  groupAfterNum [litS "total", wsPlus, altS ["value", "amount", "price"],
                 wsColonPlus, optAltS ["$"], wsStar]

/-- `contract\s+(?:value|amount|price)[\s:]+\$?\s*(amount)`. -/
def valuePat4 : Matcher :=
  groupAfterNum [litS "contract", wsPlus, altS ["value", "amount", "price"],
                 wsColonPlus, optAltS ["$"], wsStar]

def valuePatterns : List Matcher := [valuePat1, valuePat2, valuePat3, valuePat4]

/-- Decimal digit-list value. -/
def digitsVal (l : List Char) : ℕ :=
  l.foldl (fun a c => a * 10 + (c.toNat - 48)) 0

/-- Python `float` on the strings reachable from the amount group with
commas removed: digits with at most one dot and at least one digit; the
exact decimal value as a rational. -/
def pyFloatQ (l : List Char) : Option ℚ :=
  let ip := l.takeWhile Char.isDigit
  match l.drop ip.length with
  | [] =>
    if 1 ≤ ip.length then Option.some (mkRat (digitsVal ip) 1)
    else Option.none
  | '.' :: fp =>
    if fp.all Char.isDigit ∧ 1 ≤ ip.length + fp.length then
      Option.some
        (mkRat (digitsVal ip * 10 ^ fp.length + digitsVal fp) (10 ^ fp.length))
    else Option.none
  | _ => Option.none

/-- `float(match.replace(',', ''))`, with failure as `none`. -/
def parseAmount (g : List Char) : Option ℚ :=
  pyFloatQ (g.filter (fun c => c ≠ ','))

/-- The `for pattern in patterns` loop of `extract_contract_value`:
`findall`; if there are matches, parse them (failures skipped); if any
parsed, return the maximum; otherwise continue with the next pattern. -/
def extractValueGo : List Matcher → List Char → Option ℚ
  | [], _ => Option.none
  | p :: ps, tl =>
    let ms := scanAll p 0 tl
    if ms.isEmpty then extractValueGo ps tl
    else
      let amounts := ms.filterMap (fun x => parseAmount x.2.1)
      match amounts.max? with
      | Option.some q => Option.some q
      | Option.none => extractValueGo ps tl

/-- `NLPService.extract_contract_value` over the lower-cased text. -/
def extract_contract_value (text : String) : Option ℚ :=
  extractValueGo valuePatterns (lowerL text.data)

/-- The claim's algorithm for `extract_contract_value`: stop at the first
pattern with at least one regex match, then the maximum of the amounts of
that pattern that parse (absent when none parses). -/
def contractValueClaimAlg (text : String) : Option ℚ :=
  match valuePatterns.findSome? (fun p =>
      let ms := scanAll p 0 (lowerL text.data)
      if ms.isEmpty then Option.none else Option.some ms) with
  | Option.some ms => (ms.filterMap (fun x => parseAmount x.2.1)).max?
  | Option.none => Option.none

/-- What the code actually implements: stop at the first pattern with at
least one match that also parses to a float; a pattern all of whose
matches fail to parse is skipped. -/
def contractValueSpecAlg (text : String) : Option ℚ :=
  valuePatterns.findSome? (fun p =>
    ((scanAll p 0 (lowerL text.data)).filterMap (fun x => parseAmount x.2.1)).max?)

/-! ### `NLPService.extract_all_dates` -/

/-- Case-insensitive literal (the three date patterns are compiled with
`re.IGNORECASE` and run over the original text). -/
def litCIM (pat : List Char) (l : List Char) : Option ℕ :=
  if pat.isPrefixOf (lowerL l) then Option.some pat.length else Option.none

/-- Ordered case-insensitive alternation of the twelve month literals
`Jan`, ..., `Dec` (three characters each, pairwise distinct). -/
def altCI : List (List Char) → List Char → Option ℕ
  | [], _ => Option.none
  | a :: as_, l =>
    match litCIM a l with
    | Option.some k => Option.some k
    | Option.none => altCI as_ l

def monthLits : List (List Char) :=
  ["jan".data, "feb".data, "mar".data, "apr".data, "may".data, "jun".data,
   "jul".data, "aug".data, "sep".data, "oct".data, "nov".data, "dec".data]

def monthAlt : List Char → Option ℕ := altCI monthLits

/-- `[a-z]*` under `re.IGNORECASE`: any ASCII letters, greedy. -/
def alphaStar : List Char → Option ℕ := fun l =>
  Option.some (l.takeWhile Char.isAlpha).length

/-- A pattern whose capture group is the whole match. -/
def wholeGroup (steps : List (List Char → Option ℕ)) : Matcher := fun l =>
  match seqSteps steps l with
  | Option.none => Option.none
  | Option.some k => Option.some (l.take k, k)

/-- `(\d{1,2}[slash-dash]\d{1,2}[slash-dash]\d{2,4})`. -/
def datePat1 : Matcher := fun l =>
  match matchD l with
  | Option.none => Option.none
  | Option.some k => Option.some (l.take k, k)

/-- `(\d{1,2}\s+(?:Jan|...|Dec)[a-z]*\s+\d{2,4})`. -/
def datePat2 : Matcher :=
  wholeGroup [digits12, wsPlus, monthAlt, alphaStar, wsPlus, digits24]

/-- `((?:Jan|...|Dec)[a-z]*\s+\d{1,2},?\s+\d{2,4})`. -/
def datePat3 : Matcher :=
  wholeGroup [monthAlt, alphaStar, wsPlus, digits12, optAltS [","], wsPlus,
              digits24]

def allDatePatterns : List Matcher := [datePat1, datePat2, datePat3]

/-- One entry of the `extract_all_dates` result: the normalized date (the
stored value of `normalize_date`, hence an `Option`), the ±20-character
context window with newlines replaced by spaces, and the matched text. -/
structure DateEntry where
  date : Option String
  context : String
  original : String
  deriving DecidableEq, Repr

/-- Build the dict appended for each regex match: context is
`text[max(0, start-20) : min(len(text), end+20)]` with newlines blanked. -/
def mkEntries (text : List Char) (ms : List (ℕ × List Char × ℕ)) :
    List DateEntry :=
  ms.map (fun x =>
    let start := x.1 - 20
    let stop := min text.length (x.1 + x.2.2 + 20)
    let context := ((text.drop start).take (stop - start)).map
      (fun c => if c = '\n' then ' ' else c)
    ⟨normalize_date (String.mk x.2.1), String.mk context, String.mk x.2.1⟩)

/-- `NLPService.extract_all_dates`: for each pattern in order, append an
entry per match (document order within a pattern), then truncate to 10. -/
def extract_all_dates (text : String) : List DateEntry :=
  ((allDatePatterns.map
    (fun p => mkEntries text.data (scanAll p 0 text.data))).flatten).take 10

/-- Stable insertion by match position. -/
def insertByPos (x : ℕ × List Char × ℕ) :
    List (ℕ × List Char × ℕ) → List (ℕ × List Char × ℕ)
  | [] => [x]
  | y :: ys => if x.1 < y.1 then x :: y :: ys else y :: insertByPos x ys

/-- Stable sort by match position. -/
def sortByPos : List (ℕ × List Char × ℕ) → List (ℕ × List Char × ℕ)
  | [] => []
  | x :: xs => insertByPos x (sortByPos xs)

/-- The claim's description of the all-dates scan: every match of every
pattern merged in order of position in the document (interleaving pattern
types), annotated, then truncated to the first 10 in document order. -/
def specAllDatesDocOrder (text : String) : List DateEntry :=
  (mkEntries text.data
    (sortByPos ((allDatePatterns.map (fun p => scanAll p 0 text.data)).flatten))).take 10

/-! ### `NLPService.extract_obligations` -/

def obligationKeywords : List String :=
  ["shall", "must", "will", "agrees to", "commits to",
   "is responsible for", "undertakes to", "obligated to"]

/-- The sentence loop: for each piece of `text.split('.')`, scan the cue
list in order and stop at the first cue contained in the lower-cased
sentence; keep the stripped sentence when its length is strictly between
10 and 500. -/
def obligationsLoop : List String → List String
  | [] => []
  | s :: ss =>
    match obligationKeywords.find? (fun k => containsSub (lowerL s.data) k.data) with
    | Option.some _ =>
      let ob := String.mk (stripL s.data)
      if 10 < ob.length ∧ ob.length < 500 then ob :: obligationsLoop ss
      else obligationsLoop ss
    | Option.none => obligationsLoop ss

def dedupFirstGo (seen : List String) : List String → List String
  | [] => []
  | x :: xs =>
    if x ∈ seen then dedupFirstGo seen xs
    else x :: dedupFirstGo (x :: seen) xs

/-- The `seen`-set deduplication of the source, preserving first-seen
order. -/
def dedupFirst (l : List String) : List String := dedupFirstGo [] l

/-- `NLPService.extract_obligations`. -/
def extract_obligations (text : String) : List String :=
  (dedupFirst (obligationsLoop (text.splitOn "."))).take 10

/-- The claim's reference algorithm for obligations: split on the literal
period, keep pieces containing any cue (case-insensitively) whose trimmed
length is strictly between 10 and 500, deduplicate by exact equality
preserving first-seen order, take the first 10. -/
def obligationsRefAlg (text : String) : List String :=
  (dedupFirst ((text.splitOn ".").filterMap (fun s =>
    if obligationKeywords.any (fun k => containsSub (lowerL s.data) k.data) then
      let ob := String.mk (stripL s.data)
      if 10 < ob.length ∧ ob.length < 500 then Option.some ob else Option.none
    else Option.none))).take 10

/-! ### `NLPService.extract_parties` -/

/-- Backtracking helper for a greedy repetition followed by a
continuation: try extension lengths from `kmax` down to 0 and return the
first (largest) extension on which the continuation succeeds, together
with the continuation's consumed length. -/
def backtrackK (cont : List Char → Option ℕ) :
    ℕ → List Char → Option (ℕ × ℕ)
  | 0, l =>
    match cont l with
    | Option.some k3 => Option.some (0, k3)
    | Option.none => Option.none
  | k + 1, l =>
    match cont (l.drop (k + 1)) with
    | Option.some k3 => Option.some (k + 1, k3)
    | Option.none => backtrackK cont k l

/-- The party-name class `[A-Za-z\s&,]`. -/
def partyCls (c : Char) : Bool :=
  c.isAlpha || pyIsSpace c || c = '&' || c = ','

/-- `between\s+([A-Z][A-Za-z\s&,]+)\s+and` (case-sensitive, original
text); the class overlaps `\s+and`, so the `+` genuinely backtracks. -/
def partyPat1 : Matcher := fun l =>
  match seqSteps [litS "between", wsPlus] l with
  | Option.none => Option.none
  | Option.some k =>
    match l.drop k with
    | [] => Option.none
    | c0 :: grest =>
      if c0.isUpper then
        let run := (grest.takeWhile partyCls).length
        match backtrackK (seqSteps [wsPlus, litS "and"]) run grest with
        | Option.some (0, _) => Option.none
        | Option.some (k2, k3) =>
          Option.some (c0 :: grest.take k2, k + 1 + k2 + k3)
        | Option.none => Option.none
      else Option.none

/-- `PARTIES:\s*([^\n]+)`; `\s*` backtracks when the text ends in
whitespace, so the group may itself start with whitespace. -/
def partyPat2 : Matcher := fun l =>
  match litS "PARTIES:" l with
  | Option.none => Option.none
  | Option.some k =>
    let rest := l.drop k
    let maxWs := (rest.takeWhile pyIsSpace).length
    let cont : List Char → Option ℕ := fun l2 =>
      let n := (l2.takeWhile (fun c => c ≠ '\n')).length
      if 1 ≤ n then Option.some n else Option.none
    match backtrackK cont maxWs rest with
    | Option.some (j, n) =>
      Option.some ((rest.drop j).take n, k + j + n)
    | Option.none => Option.none

/-- `"([A-Z][A-Za-z\s&,]+)"\s+\(.*Company\)`; the `.*` backtracks to find
the last `Company)` on the line. -/
def partyPat3 : Matcher := fun l =>
  match litS "\"" l with
  | Option.none => Option.none
  | Option.some _ =>
    match l.drop 1 with
    | [] => Option.none
    | c0 :: grest =>
      if c0.isUpper then
        let run := (grest.takeWhile partyCls).length
        match litS "\"" (grest.drop run) with
        | Option.none => Option.none
        | Option.some _ =>
          if 1 ≤ run then
            let afterQ := grest.drop (run + 1)
            match seqSteps [wsPlus, litS "("] afterQ with
            | Option.none => Option.none
            | Option.some k2 =>
              let inner := afterQ.drop k2
              let dotRun := (inner.takeWhile (fun c => c ≠ '\n')).length
              match backtrackK (litS "Company)") dotRun inner with
              | Option.some (j, n) =>
                Option.some (c0 :: grest.take run,
                  1 + 1 + run + 1 + k2 + j + n)
              | Option.none => Option.none
          else Option.none
      else Option.none

def partyPatterns : List Matcher := [partyPat1, partyPat2, partyPat3]

/-- `NLPService.extract_parties`. Two pieces are outside the shallow
embedding and appear as parameters: `nerEnts` is the list of ORG/PERSON
entity texts produced by the optional spaCy model on the first 5000
characters (empty when the model is unavailable), and `setList` models
Python's `list(set(...))` — an iteration order of the distinct elements
that is deterministic only per process. The regex pool and the final
truncation to 5 are the code's. -/
def extract_parties (setList : List String → List String)
    (nerEnts : List String) (text : String) : List String :=
  let parties := nerEnts ++
    (partyPatterns.map
      (fun p => (scanAll p 0 text.data).map (fun x => String.mk x.2.1))).flatten
  (setList parties).take 5

/-! ### Shapes used by the claim statements -/

/-- The digit character with value `k`. -/
def ch (k : ℕ) : Char := Char.ofNat (48 + k)

/-- A string in `YYYY-MM-DD` shape: four digits, dash, two digits, dash,
two digits. Every such string is `isoShape y m d` for a unique
`y < 10000`, `m < 100`, `d < 100`. -/
def isoShape (y m d : ℕ) : String :=
  String.mk (pad4 y ++ '-' :: pad2 m ++ '-' :: pad2 d)

/-! ## Helper lemmas -/

theorem orField_ok (a b : PyVal) :
    orField (Except.ok a) (fun _ => Except.ok b) = Except.ok (pyOr a b) := by
  unfold orField pyOr
  cases h : truthy a <;> simp [h, bind, Except.bind, pure, Except.pure]

theorem unify_some_ok (sf hs : PyDict) :
    unify_customer_data (Option.some sf) (Option.some hs) = Except.ok
      ⟨pyOr (pyGet sf "Name") (pyGet hs "name"),
       pyOr (pyGet sf "Industry") (pyGet hs "industry"),
       pyOr (pyGet sf "AnnualRevenue") (pyGet hs "annualrevenue"),
       pyOr (pyGet sf "NumberOfEmployees") (pyGet hs "numberofemployees"),
       pyOr (pyGet sf "PrimaryContact") (pyGet hs "primary_contact"),
       pyOr (pyGet sf "Email") (pyGet hs "email"),
       parse_date (pyOr (pyGet sf "LastActivityDate")
         (pyGet hs "notes_last_updated"))⟩ := by
  show Except.bind (orField (Except.ok (pyGet sf "Name")) _) _ = _
  simp only [unify_customer_data, getKey, orField_ok, bind, Except.bind, pure,
    Except.pure]

theorem pyOr_none_left (b : PyVal) : pyOr PyVal.none b = b := rfl

theorem pyOr_truthy (a b : PyVal) (h : truthy a = true) : pyOr a b = a := by
  simp [pyOr, h]

theorem pyOr_falsy (a b : PyVal) (h : truthy a = false) : pyOr a b = b := by
  simp [pyOr, h]

/-! ## C1 -/

/-- C1 counterexample: a primary source record that is `None` (rather than
a mapping) does not degrade to the secondary source — the first attribute
access raises, so `unify_customer_data` does not return a canonical record
at all. -/
theorem c1_none_record_raises :
    unify_customer_data Option.none
      (Option.some [("name", PyVal.str "Acme")]) = Except.error () := rfl

/-- C1 amended: when both source records are mappings (possibly empty or
with `None` values), `unify_customer_data` returns a canonical record
without raising, and for every canonical field a missing-or-`None` primary
value degrades to the secondary source's value, while a truthy primary
value stays in place. (A source record that is itself `None` is not
tolerated; see the counterexample.) -/
theorem c1_mapping_records_degrade_per_field (sf hs : PyDict) :
    ∃ u : Unified,
      unify_customer_data (Option.some sf) (Option.some hs) = Except.ok u
      ∧ (pyGet sf "Name" = PyVal.none → u.account_name = pyGet hs "name")
      ∧ (pyGet sf "Industry" = PyVal.none → u.industry = pyGet hs "industry")
      ∧ (pyGet sf "AnnualRevenue" = PyVal.none →
          u.annual_revenue = pyGet hs "annualrevenue")
      ∧ (pyGet sf "NumberOfEmployees" = PyVal.none →
          u.employee_count = pyGet hs "numberofemployees")
      ∧ (pyGet sf "PrimaryContact" = PyVal.none →
          u.primary_contact = pyGet hs "primary_contact")
      ∧ (pyGet sf "Email" = PyVal.none → u.primary_email = pyGet hs "email")
      ∧ (pyGet sf "LastActivityDate" = PyVal.none →
          u.last_activity_date = parse_date (pyGet hs "notes_last_updated"))
      ∧ (truthy (pyGet sf "Name") = true → u.account_name = pyGet sf "Name") := by
  refine ⟨_, unify_some_ok sf hs, ?_, ?_, ?_, ?_, ?_, ?_, ?_, ?_⟩
  all_goals intro h
  · show pyOr _ _ = _; rw [h, pyOr_none_left]
  · show pyOr _ _ = _; rw [h, pyOr_none_left]
  · show pyOr _ _ = _; rw [h, pyOr_none_left]
  · show pyOr _ _ = _; rw [h, pyOr_none_left]
  · show pyOr _ _ = _; rw [h, pyOr_none_left]
  · show pyOr _ _ = _; rw [h, pyOr_none_left]
  · show parse_date (pyOr _ _) = _; rw [h, pyOr_none_left]
  · show pyOr _ _ = _; rw [pyOr_truthy _ _ h]

/-- C1 witness: an empty primary record degrades every field to the
secondary record. -/
theorem c1_mapping_records_degrade_witness :
    ∃ u : Unified,
      unify_customer_data (Option.some []) (Option.some [("name", PyVal.str "Acme")])
        = Except.ok u ∧ u.account_name = PyVal.str "Acme" := by
  obtain ⟨u, hok, h1, -, -, -, -, -, -, -⟩ :=
    c1_mapping_records_degrade_per_field [] [("name", PyVal.str "Acme")]
  exact ⟨u, hok, (h1 rfl).trans rfl⟩

/-! ## C2 -/

/-- C2 counterexample: an annual revenue of `0` in the primary record is
"present" by the specification's definition (a non-NaN number), yet the
code's truthiness-based `or` lets the secondary record's `5` win. -/
theorem c2_zero_primary_loses :
    presentSpec (PyVal.int 0) = true ∧
    unify_customer_data (Option.some [("AnnualRevenue", PyVal.int 0)])
        (Option.some [("annualrevenue", PyVal.int 5)]) =
      Except.ok ⟨PyVal.none, PyVal.none, PyVal.int 5, PyVal.none, PyVal.none,
        PyVal.none, Option.none⟩ ∧
    PyVal.int 5 ≠ PyVal.int 0 := by
  refine ⟨rfl, ?_, by decide⟩
  rw [unify_some_ok]
  rfl

/-- C2 amended: `unify_customer_data` returns the primary record's value
for a field exactly when that value is truthy in Python's sense (non-`None`,
non-empty string, non-zero number — NaN counts as truthy); a falsy primary
value (`None`, `0`, `0.0` or the empty string) falls through to the
secondary record's value. -/
theorem c2_truthy_primary_wins (sf hs : PyDict) :
    ∃ u : Unified,
      unify_customer_data (Option.some sf) (Option.some hs) = Except.ok u
      ∧ (truthy (pyGet sf "Name") = true → u.account_name = pyGet sf "Name")
      ∧ (truthy (pyGet sf "Name") = false → u.account_name = pyGet hs "name")
      ∧ (truthy (pyGet sf "Industry") = true → u.industry = pyGet sf "Industry")
      ∧ (truthy (pyGet sf "Industry") = false → u.industry = pyGet hs "industry")
      ∧ (truthy (pyGet sf "AnnualRevenue") = true →
          u.annual_revenue = pyGet sf "AnnualRevenue")
      ∧ (truthy (pyGet sf "AnnualRevenue") = false →
          u.annual_revenue = pyGet hs "annualrevenue")
      ∧ (truthy (pyGet sf "NumberOfEmployees") = true →
          u.employee_count = pyGet sf "NumberOfEmployees")
      ∧ (truthy (pyGet sf "NumberOfEmployees") = false →
          u.employee_count = pyGet hs "numberofemployees")
      ∧ (truthy (pyGet sf "PrimaryContact") = true →
          u.primary_contact = pyGet sf "PrimaryContact")
      ∧ (truthy (pyGet sf "PrimaryContact") = false →
          u.primary_contact = pyGet hs "primary_contact")
      ∧ (truthy (pyGet sf "Email") = true → u.primary_email = pyGet sf "Email")
      ∧ (truthy (pyGet sf "Email") = false → u.primary_email = pyGet hs "email")
      ∧ (truthy (pyGet sf "LastActivityDate") = true →
          u.last_activity_date = parse_date (pyGet sf "LastActivityDate"))
      ∧ (truthy (pyGet sf "LastActivityDate") = false →
          u.last_activity_date = parse_date (pyGet hs "notes_last_updated")) := by
  refine ⟨_, unify_some_ok sf hs, ?_, ?_, ?_, ?_, ?_, ?_, ?_, ?_, ?_, ?_, ?_,
    ?_, ?_, ?_⟩
  all_goals intro h
  · show pyOr _ _ = _; rw [pyOr_truthy _ _ h]
  · show pyOr _ _ = _; rw [pyOr_falsy _ _ h]
  · show pyOr _ _ = _; rw [pyOr_truthy _ _ h]
  · show pyOr _ _ = _; rw [pyOr_falsy _ _ h]
  · show pyOr _ _ = _; rw [pyOr_truthy _ _ h]
  · show pyOr _ _ = _; rw [pyOr_falsy _ _ h]
  · show pyOr _ _ = _; rw [pyOr_truthy _ _ h]
  · show pyOr _ _ = _; rw [pyOr_falsy _ _ h]
  · show pyOr _ _ = _; rw [pyOr_truthy _ _ h]
  · show pyOr _ _ = _; rw [pyOr_falsy _ _ h]
  · show pyOr _ _ = _; rw [pyOr_truthy _ _ h]
  · show pyOr _ _ = _; rw [pyOr_falsy _ _ h]
  · show parse_date (pyOr _ _) = _; rw [pyOr_truthy _ _ h]
  · show parse_date (pyOr _ _) = _; rw [pyOr_falsy _ _ h]

/-- C2 witness: a truthy primary name wins while a falsy (zero) primary
annual revenue falls through. -/
theorem c2_truthy_primary_wins_witness :
    ∃ u : Unified,
      unify_customer_data
          (Option.some [("Name", PyVal.str "Acme"), ("AnnualRevenue", PyVal.int 0)])
          (Option.some [("name", PyVal.str "Other"), ("annualrevenue", PyVal.int 7)])
        = Except.ok u
      ∧ u.account_name = PyVal.str "Acme" ∧ u.annual_revenue = PyVal.int 7 := by
  obtain ⟨u, hok, h1, -, -, -, -, h6, -, -, -, -, -, -, -, -⟩ :=
    c2_truthy_primary_wins
      [("Name", PyVal.str "Acme"), ("AnnualRevenue", PyVal.int 0)]
      [("name", PyVal.str "Other"), ("annualrevenue", PyVal.int 7)]
  exact ⟨u, hok, (h1 (by decide)).trans rfl, (h6 (by decide)).trans rfl⟩

/-! ## C4 -/

/-- C4: the `USD` amount pattern never matches real input — the literal is
upper case but the code searches the lower-cased text. On a text whose
only monetary mention is `USD 5,000` the extractor returns nothing; the
same pattern would have matched the raw (un-lowered) text. -/
theorem c4_usd_pattern_dead :
    extract_contract_value "USD 5,000" = Option.none ∧
    scanAll valuePat2 0 (lowerL "USD 5,000".data) = [] ∧
    scanAll valuePat2 0 "USD 5,000".data = [(0, "5,000".data, 9)] := by
  refine ⟨by decide, by decide, by decide⟩

/-! ## C5 -/

theorem extractValueGo_eq (ps : List Matcher) (tl : List Char) :
    extractValueGo ps tl = ps.findSome? (fun p =>
      ((scanAll p 0 tl).filterMap (fun x => parseAmount x.2.1)).max?) := by
  induction ps with
  | nil => rfl
  | cons p ps ih =>
    simp only [extractValueGo, List.findSome?_cons]
    cases h : (scanAll p 0 tl).isEmpty with
    | true =>
      have hnil : scanAll p 0 tl = [] := by
        cases hc : scanAll p 0 tl with
        | nil => rfl
        | cons a l => rw [hc] at h; simp [List.isEmpty] at h
      simp [h, hnil, ih]
    | false =>
      simp only [h, Bool.false_eq_true, if_false]
      cases hm : ((scanAll p 0 tl).filterMap (fun x => parseAmount x.2.1)).max? with
      | none => simp [hm, ih]
      | some q => simp [hm]

/-- C5 counterexample: on `"$, total value: 5"` the first pattern has a
regex match (the bare comma after the dollar sign) but no parsable amount,
so the claim's algorithm (stop at the first pattern with at least one
regex match) yields nothing — yet the code continues to the third pattern
and returns `5`. -/
theorem c5_claim_alg_differs :
    contractValueClaimAlg "$, total value: 5" = Option.none ∧
    extract_contract_value "$, total value: 5" = Option.some 5 := by
  refine ⟨by decide, by decide⟩

/-- C5 amended: the extractor stops at the first pattern (in order) with at
least one match that parses to a float — a pattern whose every match fails
to parse is skipped, not terminal. Within the chosen pattern, commas are
stripped, parse failures are skipped, and the maximum surviving amount is
returned; on `"Total value: $1,200.50 and a fee of $50"` the result is
`1200.50`. -/
theorem c5_first_parsing_pattern_max :
    (∀ t : String, extract_contract_value t = contractValueSpecAlg t) ∧
    extract_contract_value "Total value: $1,200.50 and a fee of $50" =
      Option.some (Rat.mk' 2401 2) := by
  refine ⟨fun t => extractValueGo_eq valuePatterns (lowerL t.data), by decide⟩

/-! ## C9 -/

/-- C9: for every input (and any entity-recognizer output and set
iteration order), the all-dates scan returns at most 10 entries, the
obligations extractor at most 10, and the parties extractor at most 5. -/
theorem c9_result_caps (setList : List String → List String)
    (ner : List String) (t : String) :
    (extract_all_dates t).length ≤ 10 ∧
    (extract_obligations t).length ≤ 10 ∧
    (extract_parties setList ner t).length ≤ 5 := by
  refine ⟨?_, ?_, ?_⟩
  · show (List.take 10 _).length ≤ 10
    exact List.length_take_le 10 _
  · show (List.take 10 _).length ≤ 10
    exact List.length_take_le 10 _
  · show (List.take 5 _).length ≤ 5
    exact List.length_take_le 5 _

/-! ## C10 -/

theorem extractRenewalGo_none (ps : List Matcher) (tl : List Char)
    (h : extractRenewalGo ps tl = Option.none) :
    ∀ p ∈ ps, searchGo p tl = Option.none := by
  induction ps with
  | nil => intro p hp; cases hp
  | cons p ps ih =>
    intro q hq
    cases hs : searchGo p tl with
    | some tok =>
      rw [extractRenewalGo, hs] at h
      exact absurd h (by simp [normalize_date])
    | none =>
      rw [extractRenewalGo, hs] at h
      cases hq with
      | head => exact hs
      | tail _ hmem => exact ih h q hmem

/-- C10: on a string argument `normalize_date` never returns `None`: the
result is either the first successful parse among the nine templates
reformatted as `YYYY-MM-DD` or the argument verbatim. Consequently the
callers never receive `None` from normalization: every entry of the
all-dates scan carries a non-`None` date, and `extract_renewal_date`
returns `None` only when no renewal pattern matched at all. -/
theorem c10_normalize_never_none :
    (∀ s : String, normalize_date s ≠ Option.none) ∧
    (∀ s : String,
      (tryFormatsGo normalizeFormats s.data = Option.none ∧
        normalize_date s = Option.some s) ∨
      (∃ l, tryFormatsGo normalizeFormats s.data = Option.some l ∧
        normalize_date s = Option.some (String.mk l))) ∧
    (∀ t : String, ∀ e ∈ extract_all_dates t, e.date ≠ Option.none) ∧
    (∀ t : String, extract_renewal_date t = Option.none →
      ∀ p ∈ renewalPatterns, searchGo p (lowerL t.data) = Option.none) := by
  refine ⟨fun s => by simp [normalize_date], fun s => ?_, fun t e he => ?_, ?_⟩
  · cases h : tryFormatsGo normalizeFormats s.data with
    | none => exact Or.inl ⟨rfl, by simp [normalize_date, normalize_core, h]⟩
    | some l => exact Or.inr ⟨l, rfl, by simp [normalize_date, normalize_core, h]⟩
  · have hmem : e ∈ (allDatePatterns.map
        (fun p => mkEntries t.data (scanAll p 0 t.data))).flatten :=
      List.take_subset 10 _ he
    rw [List.mem_flatten] at hmem
    obtain ⟨sub, hsub, hesub⟩ := hmem
    rw [List.mem_map] at hsub
    obtain ⟨p, -, rfl⟩ := hsub
    rw [mkEntries, List.mem_map] at hesub
    obtain ⟨x, -, rfl⟩ := hesub
    simp [normalize_date]
  · intro t h
    exact extractRenewalGo_none renewalPatterns (lowerL t.data) h

/-- C10 witness: a concrete date entry produced by the all-dates scan has
a non-`None` normalized date. -/
theorem c10_normalize_never_none_witness :
    ∃ e ∈ extract_all_dates "1/2/2021", e.date ≠ Option.none := by
  refine ⟨⟨Option.some "2021-01-02", "1/2/2021", "1/2/2021"⟩, by decide, ?_⟩
  exact c10_normalize_never_none.2.2.1 "1/2/2021" _ (by decide)

/-! ## C6 -/

theorem extractRenewalGo_eq_findSome (ps : List Matcher) (tl : List Char) :
    extractRenewalGo ps tl = (ps.findSome? fun p => searchGo p tl).map
      (fun tok =>
        match tryFormatsGo normalizeFormats tok with
        | Option.some l => String.mk l
        | Option.none => String.mk tok) := by
  induction ps with
  | nil => rfl
  | cons p ps ih =>
    rw [extractRenewalGo, List.findSome?_cons]
    cases hs : searchGo p tl with
    | some tok => simp [normalize_date, normalize_core]
    | none => simp [ih]

/-- C6: `extract_renewal_date` tries the five renewal patterns in their
fixed priority order against the lower-cased text; the first pattern with
a match anywhere wins, its captured numeric token is normalized by the
nine-template parser, a normalization failure returns the literal matched
token unchanged, and with no pattern match the result is absent. -/
theorem c6_renewal_priority_and_fallback (t : String) :
    extract_renewal_date t = renewalSpecAlg t :=
  extractRenewalGo_eq_findSome renewalPatterns (lowerL t.data)

/-! ## C7 -/

theorem find?_pred_true {α : Type} (p : α → Bool) :
    ∀ (l : List α) (a : α), l.find? p = some a → p a = true := by
  intro l
  induction l with
  | nil => intro a h; cases h
  | cons x xs ih =>
    intro a h
    by_cases hx : p x = true
    · rw [List.find?_cons_of_pos _ hx] at h
      cases h
      exact hx
    · rw [List.find?_cons_of_neg _ (by simpa using hx)] at h
      exact ih a h

theorem obligationsLoop_eq_filterMap (ss : List String) :
    obligationsLoop ss = ss.filterMap (fun s =>
      if obligationKeywords.any (fun k => containsSub (lowerL s.data) k.data) then
        if 10 < (String.mk (stripL s.data)).length ∧
            (String.mk (stripL s.data)).length < 500 then
          Option.some (String.mk (stripL s.data))
        else Option.none
      else Option.none) := by
  induction ss with
  | nil => rfl
  | cons s ss ih =>
    cases hf : obligationKeywords.find?
        (fun k => containsSub (lowerL s.data) k.data) with
    | some k =>
      have hp : containsSub (lowerL s.data) k.data = true :=
        find?_pred_true (fun j => containsSub (lowerL s.data) j.data)
          obligationKeywords k hf
      have hany : (obligationKeywords.any
          (fun k => containsSub (lowerL s.data) k.data)) = true :=
        List.any_eq_true.mpr ⟨k, List.mem_of_find?_eq_some hf, hp⟩
      simp only [obligationsLoop, hf, List.filterMap_cons]
      rw [if_pos hany]
      by_cases hb : 10 < (String.mk (stripL s.data)).length ∧
          (String.mk (stripL s.data)).length < 500
      · rw [if_pos hb, if_pos hb, ih]
      · rw [if_neg hb, if_neg hb, ih]
    | none =>
      have hany : (obligationKeywords.any
          (fun k => containsSub (lowerL s.data) k.data)) = false := by
        cases ha : obligationKeywords.any
            (fun k => containsSub (lowerL s.data) k.data) with
        | false => rfl
        | true =>
          obtain ⟨x, hx, hpx⟩ := List.any_eq_true.mp ha
          exact absurd hpx (by simpa using List.find?_eq_none.mp hf x hx)
      simp only [obligationsLoop, hf, List.filterMap_cons]
      rw [if_neg (by simp [hany]), ih]

/-- C7: `extract_obligations` coincides with the claim's reference
algorithm: split on the literal period; keep a piece when any of the eight
cues occurs in it case-insensitively (the code scans the cue list in order
and stops at the first hit, which accepts exactly the pieces containing
some cue) and the trimmed piece's length is strictly between 10 and 500;
deduplicate by exact equality preserving first-seen order; take the first
ten. -/
theorem c7_obligations_reference_alg (t : String) :
    extract_obligations t = obligationsRefAlg t := by
  rw [extract_obligations, obligationsRefAlg, obligationsLoop_eq_filterMap]

/-! ## C3 -/

theorem scanAllGo_lb (m : Matcher) :
    ∀ (fuel : ℕ) (pos : ℕ) (l : List Char),
      ∀ x ∈ scanAllGo fuel m pos l, pos ≤ x.1 := by
  intro fuel
  induction fuel with
  | zero => intro pos l x hx; cases hx
  | succ fuel ih =>
    intro pos l x hx
    match l with
    | [] => cases hx
    | c :: cs =>
      rw [scanAllGo] at hx
      cases hm : m (c :: cs) with
      | some gn =>
        obtain ⟨g, n⟩ := gn
        rw [hm] at hx
        dsimp only at hx
        by_cases hn : 1 ≤ n
        · rw [if_pos hn] at hx
          cases hx with
          | head => exact Nat.le_refl _
          | tail _ hmem =>
            exact Nat.le_trans (Nat.le_add_right _ _) (ih _ _ x hmem)
        · rw [if_neg hn] at hx
          exact Nat.le_trans (Nat.le_add_right _ _) (ih _ _ x hx)
      | none =>
        rw [hm] at hx
        exact Nat.le_trans (Nat.le_add_right _ _) (ih _ _ x hx)

theorem scanAllGo_chain (m : Matcher) :
    ∀ (fuel : ℕ) (pos : ℕ) (l : List Char),
      List.Chain' (fun a b => a.1 < b.1) (scanAllGo fuel m pos l) := by
  intro fuel
  induction fuel with
  | zero => intro pos l; exact List.chain'_nil
  | succ fuel ih =>
    intro pos l
    match l with
    | [] => exact List.chain'_nil
    | c :: cs =>
      rw [scanAllGo]
      cases hm : m (c :: cs) with
      | some gn =>
        obtain ⟨g, n⟩ := gn
        dsimp only
        by_cases hn : 1 ≤ n
        · rw [if_pos hn]
          refine List.chain'_cons'.mpr ⟨?_, ih _ _⟩
          intro y hy
          have hmem : y ∈ scanAllGo fuel m (pos + n) ((c :: cs).drop n) :=
            List.mem_of_mem_head? hy
          have := scanAllGo_lb m fuel (pos + n) _ y hmem
          omega
        · rw [if_neg hn]
          exact ih _ _
      | none => exact ih _ _

/-- C3 counterexample: on `"May 5, 2020 x 1/2/2021"` the numeric pattern's
match (`1/2/2021`, position 14) is emitted before the month-name pattern's
match (`May 5, 2020`, position 0), so the result is grouped by pattern,
not merged in document order as the claim states. -/
theorem c3_not_document_order :
    extract_all_dates "May 5, 2020 x 1/2/2021" ≠
      specAllDatesDocOrder "May 5, 2020 x 1/2/2021" ∧
    (extract_all_dates "May 5, 2020 x 1/2/2021").map DateEntry.original =
      ["1/2/2021", "May 5, 2020"] ∧
    (specAllDatesDocOrder "May 5, 2020 x 1/2/2021").map DateEntry.original =
      ["May 5, 2020", "1/2/2021"] := by
  refine ⟨by decide, by decide, by decide⟩

/-- C3 amended: the all-dates scan concatenates the three patterns' match
lists pattern by pattern — all matches of the numeric pattern (in document
order), then the day-month-year pattern's, then the month-day-year
pattern's — each annotated with its ±20-character context, and truncates
the concatenation to the first 10; within each pattern the match positions
are strictly increasing, but the pattern groups are not interleaved by
position. -/
theorem c3_grouped_by_pattern (t : String) :
    extract_all_dates t =
      ((allDatePatterns.map
        (fun p => mkEntries t.data (scanAll p 0 t.data))).flatten).take 10
    ∧ List.Chain' (· < ·) ((scanAll datePat1 0 t.data).map (fun x => x.1))
    ∧ List.Chain' (· < ·) ((scanAll datePat2 0 t.data).map (fun x => x.1))
    ∧ List.Chain' (· < ·) ((scanAll datePat3 0 t.data).map (fun x => x.1)) := by
  refine ⟨rfl, ?_, ?_, ?_⟩
  all_goals
    rw [List.chain'_map]
    exact scanAllGo_chain _ _ _ _

/-! ## C8 -/

theorem ch_isDigit (k : ℕ) (hk : k < 10) :
    (Char.ofNat (48 + k)).isDigit = true := by
  interval_cases k <;> decide

theorem ch_dval (k : ℕ) (hk : k < 10) : dval (Char.ofNat (48 + k)) = k := by
  interval_cases k <;> decide

theorem ch_not_space (k : ℕ) (hk : k < 10) :
    pyIsSpace (Char.ofNat (48 + k)) = false := by
  interval_cases k <;> decide

theorem ch_ne_slash (k : ℕ) (hk : k < 10) : ¬(Char.ofNat (48 + k) = '/') := by
  interval_cases k <;> decide

theorem ch_ne_dash (k : ℕ) (hk : k < 10) : ¬(Char.ofNat (48 + k) = '-') := by
  interval_cases k <;> decide

theorem ch_ne_comma (k : ℕ) (hk : k < 10) : ¬(Char.ofNat (48 + k) = ',') := by
  interval_cases k <;> decide

theorem ch_toLower (k : ℕ) (hk : k < 10) :
    lowerC (Char.ofNat (48 + k)) = Char.ofNat (48 + k) := by
  interval_cases k <;> decide

theorem ch_toNat (k : ℕ) (hk : k < 10) :
    (Char.ofNat (48 + k)).toNat = 48 + k := by
  interval_cases k <;> decide

/-- No month name is a prefix of a string starting with a digit: the month
name lists consist of nonempty lower-case-letter-headed words. -/
theorem matchMonth_digit_none (names : List (List Char))
    (hn : names.all (fun nm =>
      match nm with
      | h0 :: _ => decide (97 ≤ h0.toNat)
      | [] => false) = true)
    (i k : ℕ) (hk : k < 10) (rest : List Char) :
    matchMonth names i (Char.ofNat (48 + k) :: rest) = Option.none := by
  induction names generalizing i with
  | nil => rfl
  | cons nm ns ih =>
    rw [List.all_cons, Bool.and_eq_true] at hn
    obtain ⟨hnm, hns⟩ := hn
    match nm with
    | [] => exact absurd hnm (by decide)
    | h0 :: hs =>
      have hh0 : 97 ≤ h0.toNat := of_decide_eq_true hnm
      have hbeq : (h0 == lowerC (Char.ofNat (48 + k))) = false := by
        rw [ch_toLower k hk]
        rw [beq_eq_false_iff_ne]
        intro he
        rw [he, ch_toNat k hk] at hh0
        omega
      rw [matchMonth]
      rw [if_neg ?_]
      · exact ih hns (i + 1)
      · show ¬((h0 :: hs).isPrefixOf (lowerL (Char.ofNat (48 + k) :: rest)) = true)
        simp [lowerL, List.isPrefixOf, hbeq]

/-- `str.strip()` leaves a string with non-whitespace end characters
unchanged. -/
theorem stripL_of_ends (x y : Char) (mid : List Char)
    (hx : pyIsSpace x = false) (hy : pyIsSpace y = false) :
    stripL (x :: (mid ++ [y])) = x :: (mid ++ [y]) := by
  unfold stripL
  rw [List.dropWhile_cons, hx]
  simp only [Bool.false_eq_true, if_false]
  rw [List.reverse_cons, List.reverse_append, List.reverse_singleton,
    List.singleton_append, List.cons_append, List.dropWhile_cons, hy]
  simp

/-- A format starting `%m/...` fails on three leading digits (the slash
never arrives). -/
theorem runFmt_tM_slash (ts : List Tok) (a b c : ℕ)
    (ha : a < 10) (hb : b < 10) (hc : c < 10) (rest : List Char) (st : DParts) :
    runFmt (Tok.tM :: Tok.lit '/' :: ts)
      (Char.ofNat (48 + a) :: Char.ofNat (48 + b) :: Char.ofNat (48 + c) :: rest)
      st = Option.none := by
  simp only [runFmt, ch_isDigit a ha, ch_isDigit b hb, true_and]
  rw [if_neg (ch_ne_slash c hc), if_neg (ch_ne_slash b hb)]
  simp

/-- A format starting `%m-...` fails on three leading digits (the dash
never arrives). -/
theorem runFmt_tM_dash (ts : List Tok) (a b c : ℕ)
    (ha : a < 10) (hb : b < 10) (hc : c < 10) (rest : List Char) (st : DParts) :
    runFmt (Tok.tM :: Tok.lit '-' :: ts)
      (Char.ofNat (48 + a) :: Char.ofNat (48 + b) :: Char.ofNat (48 + c) :: rest)
      st = Option.none := by
  simp only [runFmt, ch_isDigit a ha, ch_isDigit b hb, true_and]
  rw [if_neg (ch_ne_dash c hc), if_neg (ch_ne_dash b hb)]
  simp

/-- A format starting `%d ...` fails on three leading digits (the
whitespace never arrives). -/
theorem runFmt_tD_ws (ts : List Tok) (a b c : ℕ)
    (ha : a < 10) (hb : b < 10) (hc : c < 10) (rest : List Char) (st : DParts) :
    runFmt (Tok.tD :: Tok.ws :: ts)
      (Char.ofNat (48 + a) :: Char.ofNat (48 + b) :: Char.ofNat (48 + c) :: rest)
      st = Option.none := by
  simp only [runFmt, ch_isDigit a ha, ch_isDigit b hb, true_and,
    ch_not_space b hb, ch_not_space c hc]
  simp

/-- A format starting `%B ...` fails on a leading digit. -/
theorem runFmt_tBfull_digit (ts : List Tok) (a : ℕ) (ha : a < 10)
    (rest : List Char) (st : DParts) :
    runFmt (Tok.tBfull :: ts) (Char.ofNat (48 + a) :: rest) st = Option.none := by
  rw [runFmt, matchMonth_digit_none fullMonthNames (by decide) 1 a ha]

/-- A format starting `%b ...` fails on a leading digit. -/
theorem runFmt_tBabbr_digit (ts : List Tok) (a : ℕ) (ha : a < 10)
    (rest : List Char) (st : DParts) :
    runFmt (Tok.tBabbr :: ts) (Char.ofNat (48 + a) :: rest) st = Option.none := by
  rw [runFmt, matchMonth_digit_none abbrMonthNames (by decide) 1 a ha]

/-- Running the `%Y-%m-%d` format on a ten-character digit-dash shape:
the four-digit year always lexes; the month and day fields succeed exactly
when their two-digit values are in regex range. -/
theorem runFmt_ymd (a b c d e f g h : ℕ)
    (ha : a < 10) (hb : b < 10) (hc : c < 10) (hd : d < 10)
    (he : e < 10) (hf : f < 10) (hg : g < 10) (hh : h < 10) (st : DParts) :
    runFmt [Tok.tY4, Tok.lit '-', Tok.tM, Tok.lit '-', Tok.tD]
      [Char.ofNat (48 + a), Char.ofNat (48 + b), Char.ofNat (48 + c),
       Char.ofNat (48 + d), '-', Char.ofNat (48 + e), Char.ofNat (48 + f),
       '-', Char.ofNat (48 + g), Char.ofNat (48 + h)] st =
    if 1 ≤ e * 10 + f ∧ e * 10 + f ≤ 12 then
      if 1 ≤ g * 10 + h ∧ g * 10 + h ≤ 31 then
        Option.some ⟨((a * 10 + b) * 10 + c) * 10 + d, e * 10 + f, g * 10 + h⟩
      else Option.none
    else Option.none := by
  by_cases hef : 1 ≤ e * 10 + f ∧ e * 10 + f ≤ 12
  · by_cases hgh : 1 ≤ g * 10 + h ∧ g * 10 + h ≤ 31
    · rw [if_pos hef, if_pos hgh]
      simp [runFmt, ch_isDigit a ha, ch_isDigit b hb, ch_isDigit c hc,
        ch_isDigit d hd, ch_isDigit e he, ch_isDigit f hf, ch_isDigit g hg,
        ch_isDigit h hh, ch_dval a ha, ch_dval b hb, ch_dval c hc,
        ch_dval d hd, ch_dval e he, ch_dval f hf, ch_dval g hg, ch_dval h hh,
        hef, hgh]
    · rw [if_pos hef, if_neg hgh]
      simp [runFmt, ch_isDigit a ha, ch_isDigit b hb, ch_isDigit c hc,
        ch_isDigit d hd, ch_isDigit e he, ch_isDigit f hf, ch_isDigit g hg,
        ch_isDigit h hh, ch_dval a ha, ch_dval b hb, ch_dval c hc,
        ch_dval d hd, ch_dval e he, ch_dval f hf, ch_dval g hg, ch_dval h hh,
        hef, hgh]
  · rw [if_neg hef]
    simp [runFmt, ch_isDigit a ha, ch_isDigit b hb, ch_isDigit c hc,
      ch_isDigit d hd, ch_isDigit e he, ch_isDigit f hf,
      ch_dval a ha, ch_dval b hb, ch_dval c hc, ch_dval d hd,
      ch_dval e he, ch_dval f hf, ch_ne_dash f hf, hef]

/-- C8: date normalization is idempotent on `YYYY-MM-DD`-shaped strings —
for every four-digit/two-digit/two-digit shape (valid calendar date or
not), `normalize_date` returns the string unchanged: a valid date parses
with the `%Y-%m-%d` template and reformats to the identical string, and an
invalid one fails every template and falls back to the input verbatim. -/
theorem c8_normalize_idempotent (y m d : ℕ)
    (hy : y < 10000) (hm : m < 100) (hd : d < 100) :
    normalize_date (isoShape y m d) = Option.some (isoShape y m d) := by
  have ha : y / 1000 % 10 < 10 := Nat.mod_lt _ (by omega)
  have hb : y / 100 % 10 < 10 := Nat.mod_lt _ (by omega)
  have hc : y / 10 % 10 < 10 := Nat.mod_lt _ (by omega)
  have hd4 : y % 10 < 10 := Nat.mod_lt _ (by omega)
  have he : m / 10 % 10 < 10 := Nat.mod_lt _ (by omega)
  have hf : m % 10 < 10 := Nat.mod_lt _ (by omega)
  have hg : d / 10 % 10 < 10 := Nat.mod_lt _ (by omega)
  have hh : d % 10 < 10 := Nat.mod_lt _ (by omega)
  have hL : (isoShape y m d).data =
      [Char.ofNat (48 + y / 1000 % 10), Char.ofNat (48 + y / 100 % 10),
       Char.ofNat (48 + y / 10 % 10), Char.ofNat (48 + y % 10), '-',
       Char.ofNat (48 + m / 10 % 10), Char.ofNat (48 + m % 10), '-',
       Char.ofNat (48 + d / 10 % 10), Char.ofNat (48 + d % 10)] := by
    simp [isoShape, pad4, pad2]
  have hshape : (isoShape y m d).data =
      Char.ofNat (48 + y / 1000 % 10) ::
      ([Char.ofNat (48 + y / 100 % 10), Char.ofNat (48 + y / 10 % 10),
        Char.ofNat (48 + y % 10), '-', Char.ofNat (48 + m / 10 % 10),
        Char.ofNat (48 + m % 10), '-', Char.ofNat (48 + d / 10 % 10)] ++
       [Char.ofNat (48 + d % 10)]) := by
    rw [hL]; rfl
  have hstrip : stripL (isoShape y m d).data = (isoShape y m d).data := by
    rw [hshape]
    exact stripL_of_ends _ _ _ (ch_not_space _ ha) (ch_not_space _ hh)
  have h1 : strptimeF [Tok.tM, Tok.lit '/', Tok.tD, Tok.lit '/', Tok.tY4]
      (isoShape y m d).data = Option.none := by
    rw [strptimeF, hL, runFmt_tM_slash _ _ _ _ ha hb hc]
  have h2 : strptimeF [Tok.tM, Tok.lit '-', Tok.tD, Tok.lit '-', Tok.tY4]
      (isoShape y m d).data = Option.none := by
    rw [strptimeF, hL, runFmt_tM_dash _ _ _ _ ha hb hc]
  have h4 : strptimeF [Tok.tM, Tok.lit '/', Tok.tD, Tok.lit '/', Tok.tY2]
      (isoShape y m d).data = Option.none := by
    rw [strptimeF, hL, runFmt_tM_slash _ _ _ _ ha hb hc]
  have h5 : strptimeF [Tok.tM, Tok.lit '-', Tok.tD, Tok.lit '-', Tok.tY2]
      (isoShape y m d).data = Option.none := by
    rw [strptimeF, hL, runFmt_tM_dash _ _ _ _ ha hb hc]
  have h6 : strptimeF [Tok.tBfull, Tok.ws, Tok.tD, Tok.lit ',', Tok.ws, Tok.tY4]
      (isoShape y m d).data = Option.none := by
    rw [strptimeF, hL, runFmt_tBfull_digit _ _ ha]
  have h7 : strptimeF [Tok.tBabbr, Tok.ws, Tok.tD, Tok.lit ',', Tok.ws, Tok.tY4]
      (isoShape y m d).data = Option.none := by
    rw [strptimeF, hL, runFmt_tBabbr_digit _ _ ha]
  have h8 : strptimeF [Tok.tD, Tok.ws, Tok.tBfull, Tok.ws, Tok.tY4]
      (isoShape y m d).data = Option.none := by
    rw [strptimeF, hL, runFmt_tD_ws _ _ _ _ ha hb hc]
  have h9 : strptimeF [Tok.tD, Tok.ws, Tok.tBabbr, Tok.ws, Tok.tY4]
      (isoShape y m d).data = Option.none := by
    rw [strptimeF, hL, runFmt_tD_ws _ _ _ _ ha hb hc]
  have hyv : ((y / 1000 % 10 * 10 + y / 100 % 10) * 10 + y / 10 % 10) * 10 +
      y % 10 = y := by omega
  have hmv : m / 10 % 10 * 10 + m % 10 = m := by omega
  have hdv : d / 10 % 10 * 10 + d % 10 = d := by omega
  have h3 : strptimeF [Tok.tY4, Tok.lit '-', Tok.tM, Tok.lit '-', Tok.tD]
      (isoShape y m d).data =
      if 1 ≤ m ∧ m ≤ 12 then
        if 1 ≤ d ∧ d ≤ 31 then
          if 1 ≤ y ∧ y ≤ 9999 ∧ d ≤ daysInMonth y m then
            Option.some ⟨y, m, d⟩
          else Option.none
        else Option.none
      else Option.none := by
    rw [strptimeF, hL,
      runFmt_ymd _ _ _ _ _ _ _ _ ha hb hc hd4 he hf hg hh, hyv, hmv, hdv]
    by_cases hc1 : 1 ≤ m ∧ m ≤ 12
    · by_cases hc2 : 1 ≤ d ∧ d ≤ 31
      · simp [hc1, hc2]
      · simp [hc1, hc2]
    · simp [hc1]
  have hiso : String.mk (strftimeIso ⟨y, m, d⟩) = isoShape y m d := rfl
  show Option.some (normalize_core (isoShape y m d)) = _
  rw [normalize_core]
  rw [show normalizeFormats =
    [[Tok.tM, Tok.lit '/', Tok.tD, Tok.lit '/', Tok.tY4],
     [Tok.tM, Tok.lit '-', Tok.tD, Tok.lit '-', Tok.tY4],
     [Tok.tY4, Tok.lit '-', Tok.tM, Tok.lit '-', Tok.tD],
     [Tok.tM, Tok.lit '/', Tok.tD, Tok.lit '/', Tok.tY2],
     [Tok.tM, Tok.lit '-', Tok.tD, Tok.lit '-', Tok.tY2],
     [Tok.tBfull, Tok.ws, Tok.tD, Tok.lit ',', Tok.ws, Tok.tY4],
     [Tok.tBabbr, Tok.ws, Tok.tD, Tok.lit ',', Tok.ws, Tok.tY4],
     [Tok.tD, Tok.ws, Tok.tBfull, Tok.ws, Tok.tY4],
     [Tok.tD, Tok.ws, Tok.tBabbr, Tok.ws, Tok.tY4]] from rfl]
  simp only [tryFormatsGo, hstrip, h1, h2, h3, h4, h5, h6, h7, h8, h9]
  by_cases hc1 : 1 ≤ m ∧ m ≤ 12
  · by_cases hc2 : 1 ≤ d ∧ d ≤ 31
    · by_cases hc3 : 1 ≤ y ∧ y ≤ 9999 ∧ d ≤ daysInMonth y m
      · simp [hc1, hc2, hc3, hiso]
      · simp [hc1, hc2, hc3]
    · simp [hc1, hc2]
  · simp [hc1]

/-- C8 witness: normalizing the already-normalized `2024-05-17` returns it
unchanged. -/
theorem c8_normalize_idempotent_witness :
    (2024 : ℕ) < 10000 ∧ (5 : ℕ) < 100 ∧ (17 : ℕ) < 100 ∧
    normalize_date (isoShape 2024 5 17) = Option.some (isoShape 2024 5 17) :=
  ⟨by decide, by decide, by decide,
    c8_normalize_idempotent 2024 5 17 (by decide) (by decide) (by decide)⟩

end Copilot


